import Mathlib

/-!
Shallow embedding of `src/main.rs` of atcoder-bot-rs (the submission-diff
notification pipeline).  Machine integers (`i64`, `i32`, `u32`) are modelled
by `ℤ`/`ℕ` (no overflow occurs in the modelled ranges), `f64`/`f32`
arithmetic is modelled exactly over `ℝ`, the Rust cast `as i64` is
truncation toward zero (`truncToInt`), a Rust panic (`expect`, `unwrap`,
or the unreachable branch) is modelled by a distinguished outcome or by a
default value that is proved unreachable, and the `HashSet` roster is
modelled as a list in iteration order.
-/

namespace AtcoderBot

/-- The `Color` enum of the source, constructors in declaration order
(`Black` is the sentinel for unknown difficulty). -/
inductive Color where
  | Black
  | Gray
  | Brown
  | Green
  | Cyan
  | Blue
  | Yellow
  | Orange
  | Red
  deriving DecidableEq, Repr

/-- Constructor index; the derived Rust `Ord` on the enum compares by
declaration order, which is exactly this index. -/
def Color.toIdx : Color → ℕ
  | .Black => 0
  | .Gray => 1
  | .Brown => 2
  | .Green => 3
  | .Cyan => 4
  | .Blue => 5
  | .Yellow => 6
  | .Orange => 7
  | .Red => 8

/-- The severity order on colors (Rust derived `Ord`). -/
def Color.le (a b : Color) : Prop := a.toIdx ≤ b.toIdx

/-- Strict severity order on colors. -/
def Color.lt (a b : Color) : Prop := a.toIdx < b.toIdx

instance (a b : Color) : Decidable (Color.le a b) := by
  unfold Color.le; infer_instance

instance (a b : Color) : Decidable (Color.lt a b) := by
  unfold Color.lt; infer_instance

/-- Rust `Ord::max` on two colors: returns the second argument when they
compare equal, the larger one otherwise. -/
def Color.cmax (a b : Color) : Color := if a.toIdx ≤ b.toIdx then b else a

/-- `impl From<Color> for u32`: the fixed RGB accent value. -/
def colorValue : Color → ℕ
  | .Black => 0x000000
  | .Gray => 0x808080
  | .Brown => 0x804000
  | .Green => 0x008000
  | .Cyan => 0x00c0c0
  | .Blue => 0x0000ff
  | .Yellow => 0xc0c000
  | .Orange => 0xff8000
  | .Red => 0xff0000

/-- `impl From<Color> for String`: the display label.  The `Black` arm of
the source is the unreachable panic branch, modelled by `none`. -/
def colorLabel : Color → Option String
  | .Black => none
  | .Gray => some "灰"
  | .Brown => some "茶"
  | .Green => some "緑"
  | .Cyan => some "水"
  | .Blue => some "青"
  | .Yellow => some "黄"
  | .Orange => some "橙"
  | .Red => some "赤"

/-- Rust `as i64` on an `f64` value: truncation toward zero. -/
noncomputable def truncToInt (x : ℝ) : ℤ := if 0 ≤ x then ⌊x⌋ else ⌈x⌉

/-- `normalize_difficulty` of the source; the `f64` expression
`400.0 / (1.0 + (1.0 - difficulty as f64 / 400.0).exp())` is modelled
exactly over `ℝ`. -/
noncomputable def normalize_difficulty (difficulty : ℤ) : ℤ :=
  if 400 ≤ difficulty then difficulty
  else truncToInt (400 / (1 + Real.exp (1 - (difficulty : ℝ) / 400)))

/-- `difficulty_color` of the source: an ordered `i64` range match whose
final arm is `_ => Color::Red`. -/
def difficulty_color (difficulty : ℤ) : Color :=
  if 0 ≤ difficulty ∧ difficulty ≤ 399 then Color.Gray
  else if 400 ≤ difficulty ∧ difficulty ≤ 799 then Color.Brown
  else if 800 ≤ difficulty ∧ difficulty ≤ 1199 then Color.Green
  else if 1200 ≤ difficulty ∧ difficulty ≤ 1599 then Color.Cyan
  else if 1600 ≤ difficulty ∧ difficulty ≤ 1999 then Color.Blue
  else if 2000 ≤ difficulty ∧ difficulty ≤ 2399 then Color.Yellow
  else if 2400 ≤ difficulty ∧ difficulty ≤ 2799 then Color.Orange
  else Color.Red

lemma curve_pos (d : ℝ) : 0 < 400 / (1 + Real.exp (1 - d / 400)) := by
  positivity

lemma curve_lt_400 (d : ℝ) : 400 / (1 + Real.exp (1 - d / 400)) < 400 := by
  rw [div_lt_iff₀ (by positivity)]
  nlinarith [Real.exp_pos (1 - d / 400)]

lemma curve_mono {d₁ d₂ : ℝ} (h : d₁ ≤ d₂) :
    400 / (1 + Real.exp (1 - d₁ / 400)) ≤ 400 / (1 + Real.exp (1 - d₂ / 400)) := by
  gcongr

lemma normalize_low_eq_floor (d : ℤ) (h : d < 400) :
    normalize_difficulty d = ⌊(400 : ℝ) / (1 + Real.exp (1 - (d : ℝ) / 400))⌋ := by
  unfold normalize_difficulty truncToInt
  rw [if_neg (by omega), if_pos (curve_pos _).le]

/-- `ProblemModelItem` of the source (one entry of problem-models.json);
float fields are modelled over `ℝ`. -/
structure ProblemModelItem where
  slope : Option ℝ
  intercept : Option ℝ
  variance : Option ℝ
  difficulty : Option ℤ
  discrimination : Option ℝ
  irt_loglikelihood : Option ℝ
  irt_users : Option ℤ
  is_experimental : Option Bool

/-- `#[derive(Default)]` on `ProblemModelItem`: every field `None`. -/
instance : Inhabited ProblemModelItem :=
  ⟨⟨none, none, none, none, none, none, none, none⟩⟩

/-- `ProblemItem` of the source (one entry of problems.json). -/
structure ProblemItem where
  id : String
  contest_id : String
  problem_index : String
  name : String
  title : String
  deriving DecidableEq

/-- `#[derive(Default)]` on `ProblemItem`: every field the empty string. -/
instance : Inhabited ProblemItem := ⟨⟨"", "", "", "", ""⟩⟩

/-- `SubmissionItem` of the source; `point: f32` is modelled over `ℝ`. -/
structure SubmissionItem where
  id : ℤ
  epoch_second : ℤ
  problem_id : String
  contest_id : String
  user_id : String
  language : String
  point : ℝ
  length : ℤ
  result : String
  execution_time : Option ℤ

/-- Default value standing in for the `unwrap()` on the representative
submission lookup; never used on reachable paths (the looked-up id always
comes from a submission of the same list). -/
instance : Inhabited SubmissionItem := ⟨⟨0, 0, "", "", "", "", 0, 0, "", none⟩⟩

/-- `ProblemDetail` of the source. -/
structure ProblemDetail where
  title : String
  difficulty : Option ℤ
  language : String
  submission_url : String
  deriving DecidableEq

/-- The ids of the problems with an accepted submission, one occurrence per
accepted submission (the source collects into a `Vec`, not a set): lines
286-290 of the source. -/
def solved_ids (submissions : List SubmissionItem) : List String :=
  (submissions.filter fun s => s.result == "AC").map fun s => s.problem_id

/-- Construction of one `ProblemDetail` for a solved id: lines 292-311 of
the source.  The `HashMap::get` on the model map is modelled by
`List.lookup` on an association list; both missing-entry `unwrap_or_default`
calls use the derived defaults; the representative submission is searched in
the **unfiltered** submission list, and its `unwrap()` is modelled by
`getD default` (never hit for ids coming from `solved_ids`). -/
def mkProblemDetail (problem_models : List (String × ProblemModelItem))
    (problems : List ProblemItem) (submissions : List SubmissionItem)
    (id : String) : ProblemDetail :=
  let problem_model := (List.lookup id problem_models).getD default
  let problem := (problems.find? fun p => p.id == id).getD default
  let submission := (submissions.find? fun s => s.problem_id == id).getD default
  ⟨problem.title, problem_model.difficulty, submission.language,
    "https://atcoder.jp/contests/" ++ problem.contest_id ++ "/submissions/"
      ++ toString submission.id⟩

/-- The per-account result list (`solved_problems` of the source). -/
def solved_problems (problem_models : List (String × ProblemModelItem))
    (problems : List ProblemItem) (submissions : List SubmissionItem) :
    List ProblemDetail :=
  (solved_ids submissions).map (mkProblemDetail problem_models problems submissions)

/-- The color contributed by one entry when computing a page's summary
color: `p.difficulty.map(normalize_difficulty).map(difficulty_color)
.unwrap_or(Color::Black)` (lines 322-327 of the source). -/
noncomputable def detailColor (p : ProblemDetail) : Color :=
  match p.difficulty with
  | some d => difficulty_color (normalize_difficulty d)
  | none => Color.Black

/-- `ProblemDetail::to_field` of the source.  The display label of the color
is total on the colors reachable here; its unreachable `Black` arm is
modelled by `getD ""`. -/
noncomputable def to_field (p : ProblemDetail) : String × String × Bool :=
  (p.title,
    (match p.difficulty with
     | some d =>
         toString (normalize_difficulty d) ++ "("
           ++ (colorLabel (difficulty_color (normalize_difficulty d))).getD "" ++ ")"
     | none => "不明")
      ++ " | " ++ p.language ++ " | [提出](" ++ p.submission_url ++ ")",
    false)

/-- Rust `slice::chunks(n)`: consecutive chunks of size `n`, the last chunk
possibly shorter.  The `n = 0` guard only serves termination; the source
always calls it with `n = 25`. -/
def chunksOf {α : Type} (n : ℕ) (l : List α) : List (List α) :=
  match l with
  | [] => []
  | x :: xs =>
    if _h : n = 0 then []
    else (x :: xs).take n :: chunksOf n ((x :: xs).drop n)
termination_by l.length
decreasing_by
  simp only [List.length_drop, List.length_cons]
  omega

/-- `Iterator::max` over colors: `none` on the empty list (where the source
would panic on `unwrap()`), otherwise the fold of `Ord::max`. -/
def listMax? : List Color → Option Color
  | [] => none
  | c :: cs => some (cs.foldl Color.cmax c)

/-- The summary color of one chunk (lines 319-330 of the source); the
`unwrap()` is modelled by `getD Color.Black` and is never hit because every
chunk produced by `chunksOf` is non-empty. -/
noncomputable def summaryColor (chunk : List ProblemDetail) : Color :=
  (listMax? (chunk.map detailColor)).getD Color.Black

/-- The data of one `CreateEmbed` built by the pipeline. -/
structure Embed where
  title : String
  url : String
  fields : List (String × String × Bool)
  color : ℕ
  deriving DecidableEq

/-- One notification page for `user` from one chunk of details
(lines 314-331 of the source). -/
noncomputable def mkEmbed (user : String) (chunk : List ProblemDetail) : Embed :=
  ⟨user ++ " さんが昨日ACした問題",
   "https://atcoder.jp/users/" ++ user,
   chunk.map to_field,
   colorValue (summaryColor chunk)⟩

/-- All pages for one account. -/
noncomputable def userEmbeds (problem_models : List (String × ProblemModelItem))
    (problems : List ProblemItem) (user : String)
    (submissions : List SubmissionItem) : List Embed :=
  (chunksOf 25 (solved_problems problem_models problems submissions)).map
    (mkEmbed user)

/-- The persisted `Data` of the source; the two `Mutex`es are irrelevant in
this sequential model, the `HashSet` roster is a list in iteration order. -/
structure Data where
  channel : Option ℕ
  users : List String

/-- Outcomes of one pipeline run.  `panicked` models a Rust panic
(`expect`), which is not a recoverable `Err` return; `notConfigured` is the
error of the spec's taxonomy and is never produced by `process`. -/
inductive RunError where
  | loadError
  | notConfigured
  | panicked (msg : String)
  | upstreamError
  deriving DecidableEq

/-- What the send step at the end of `process` does. -/
inductive SendAction where
  | notice (text : String)
  | message (embeds : List Embed)

/-- The per-account loop of `process` (lines 270-332): fetch one account's
submissions (any fetch failure aborts the whole run), extend the embed list
with the account's pages. -/
noncomputable def processUsers (problem_models : List (String × ProblemModelItem))
    (problems : List ProblemItem)
    (fetchSubs : String → Except Unit (List SubmissionItem)) :
    List String → Except Unit (List Embed)
  | [] => .ok []
  | u :: rest =>
    match fetchSubs u with
    | .error e => .error e
    | .ok subs =>
      match processUsers problem_models problems fetchSubs rest with
      | .error e => .error e
      | .ok tail => .ok (userEmbeds problem_models problems u subs ++ tail)

/-- `process` of the source, with the effectful inputs (the config load and
the three upstream fetches) passed in as results: load the config, read the
roster, `expect` the channel (a panic when unset), fetch the two shared
catalogs, loop over the roster, then send either the plain notice (no pages
at all) or one message carrying every page. -/
noncomputable def process (loadResult : Except Unit Data)
    (fetchModels : Except Unit (List (String × ProblemModelItem)))
    (fetchProblems : Except Unit (List ProblemItem))
    (fetchSubs : String → Except Unit (List SubmissionItem)) :
    Except RunError (ℕ × SendAction) :=
  match loadResult with
  | .error _ => .error .loadError
  | .ok data =>
    match data.channel with
    | none => .error (.panicked "Channel not set")
    | some channel =>
      match fetchModels with
      | .error _ => .error .upstreamError
      | .ok problem_models =>
        match fetchProblems with
        | .error _ => .error .upstreamError
        | .ok problems =>
          match processUsers problem_models problems fetchSubs data.users with
          | .error _ => .error .upstreamError
          | .ok embeds =>
            if embeds.isEmpty then
              .ok (channel, .notice "昨日は誰もACしませんでした。")
            else
              .ok (channel, .message embeds)

/-! ### Helper lemmas -/

lemma chunksOf_nil {α : Type} (n : ℕ) : chunksOf n ([] : List α) = [] := by
  rw [chunksOf]

lemma chunksOf_cons {α : Type} (n : ℕ) (hn : n ≠ 0) (x : α) (xs : List α) :
    chunksOf n (x :: xs) = (x :: xs).take n :: chunksOf n ((x :: xs).drop n) := by
  rw [chunksOf]
  simp [hn]

lemma chunksOf_eq_cons {α : Type} (n : ℕ) (hn : n ≠ 0) (l : List α) (hl : l ≠ []) :
    chunksOf n l = l.take n :: chunksOf n (l.drop n) := by
  cases l with
  | nil => exact absurd rfl hl
  | cons x xs => exact chunksOf_cons n hn x xs

lemma chunksOf_join_aux {α : Type} (n : ℕ) (hn : n ≠ 0) :
    ∀ (k : ℕ) (l : List α), l.length ≤ k → (chunksOf n l).flatten = l := by
  intro k
  induction k with
  | zero =>
    intro l hl
    have hl0 : l = [] := List.eq_nil_of_length_eq_zero (Nat.le_zero.mp hl)
    subst hl0
    simp [chunksOf_nil]
  | succ k ih =>
    intro l hl
    cases l with
    | nil => simp [chunksOf_nil]
    | cons x xs =>
      have hl1 : xs.length + 1 ≤ k + 1 := by simpa using hl
      rw [chunksOf_cons n hn x xs]
      have hk : ((x :: xs).drop n).length ≤ k := by
        simp only [List.length_drop, List.length_cons]
        omega
      simp only [List.flatten_cons, ih _ hk, List.take_append_drop]

lemma chunksOf_join {α : Type} (n : ℕ) (hn : n ≠ 0) (l : List α) :
    (chunksOf n l).flatten = l :=
  chunksOf_join_aux n hn l.length l le_rfl

lemma chunksOf_mem_aux {α : Type} (n : ℕ) :
    ∀ (k : ℕ) (l : List α), l.length ≤ k →
      ∀ c ∈ chunksOf n l, c ≠ [] ∧ c.length ≤ n := by
  intro k
  induction k with
  | zero =>
    intro l hl c hc
    have hl0 : l = [] := List.eq_nil_of_length_eq_zero (Nat.le_zero.mp hl)
    subst hl0
    rw [chunksOf_nil] at hc
    exact absurd hc (List.not_mem_nil c)
  | succ k ih =>
    intro l hl c hc
    cases l with
    | nil =>
      rw [chunksOf_nil] at hc
      exact absurd hc (List.not_mem_nil c)
    | cons x xs =>
      by_cases hn : n = 0
      · subst hn
        rw [chunksOf] at hc
        simp at hc
      · have hl1 : xs.length + 1 ≤ k + 1 := by simpa using hl
        rw [chunksOf_cons n hn x xs] at hc
        rcases List.mem_cons.mp hc with rfl | hc2
        · constructor
          · cases n with
            | zero => exact absurd rfl hn
            | succ m => simp
          · rw [List.length_take]
            exact Nat.min_le_left _ _
        · exact ih ((x :: xs).drop n)
            (by simp only [List.length_drop, List.length_cons]; omega) c hc2

lemma chunksOf_mem_ne_nil {α : Type} (n : ℕ) (l : List α) :
    ∀ c ∈ chunksOf n l, c ≠ [] :=
  fun c hc => (chunksOf_mem_aux n l.length l le_rfl c hc).1

lemma chunksOf_mem_length_le {α : Type} (n : ℕ) (l : List α) :
    ∀ c ∈ chunksOf n l, c.length ≤ n :=
  fun c hc => (chunksOf_mem_aux n l.length l le_rfl c hc).2

lemma chunksOf_25_of_len_30 {α : Type} (l : List α) (h : l.length = 30) :
    (chunksOf 25 l).map List.length = [25, 5] := by
  have h1 : l ≠ [] := by intro e; subst e; simp at h
  rw [chunksOf_eq_cons 25 (by decide) l h1]
  have hd5 : (l.drop 25).length = 5 := by simp [h]
  have h2 : l.drop 25 ≠ [] := by
    intro e
    rw [e] at hd5
    simp at hd5
  rw [chunksOf_eq_cons 25 (by decide) _ h2]
  have h3 : (l.drop 25).drop 25 = [] := by
    apply List.eq_nil_of_length_eq_zero
    simp [h]
  rw [h3, chunksOf_nil]
  have ht1 : (l.take 25).length = 25 := by
    rw [List.length_take, h]
    decide
  have ht2 : ((l.drop 25).take 25).length = 5 := by
    rw [List.length_take, List.length_drop, h]
    decide
  simp [ht1, ht2]

lemma Color.le_refl (a : Color) : Color.le a a := Nat.le_refl _

lemma Color.le_cmax_left (a b : Color) : Color.le a (Color.cmax a b) := by
  unfold Color.cmax
  split
  · rename_i h
    exact h
  · exact Color.le_refl a

lemma Color.le_cmax_right (a b : Color) : Color.le b (Color.cmax a b) := by
  unfold Color.cmax
  split
  · exact Color.le_refl b
  · rename_i h
    exact Nat.le_of_lt (Nat.lt_of_not_le h)

lemma Color.cmax_choice (a b : Color) : Color.cmax a b = a ∨ Color.cmax a b = b := by
  unfold Color.cmax
  split
  · exact Or.inr rfl
  · exact Or.inl rfl

lemma foldl_cmax_bound (l : List Color) (a : Color) :
    Color.le a (l.foldl Color.cmax a) ∧
      ∀ x ∈ l, Color.le x (l.foldl Color.cmax a) := by
  induction l generalizing a with
  | nil => exact ⟨Color.le_refl a, by simp⟩
  | cons y ys ih =>
    have h := ih (Color.cmax a y)
    refine ⟨Nat.le_trans (Color.le_cmax_left a y) h.1, ?_⟩
    intro x hx
    rcases List.mem_cons.mp hx with rfl | hx2
    · exact Nat.le_trans (Color.le_cmax_right a x) h.1
    · exact h.2 x hx2

lemma foldl_cmax_mem (l : List Color) (a : Color) :
    l.foldl Color.cmax a = a ∨ l.foldl Color.cmax a ∈ l := by
  induction l generalizing a with
  | nil => exact Or.inl rfl
  | cons y ys ih =>
    rcases ih (Color.cmax a y) with h | h
    · rcases Color.cmax_choice a y with h1 | h1
      · exact Or.inl (by rw [List.foldl_cons, h, h1])
      · refine Or.inr ?_
        rw [List.foldl_cons, h, h1]
        exact List.mem_cons_self y ys
    · exact Or.inr (List.mem_cons_of_mem y h)

lemma processUsers_ok (pm : List (String × ProblemModelItem))
    (ps : List ProblemItem) (fs : String → Except Unit (List SubmissionItem))
    (subsOf : String → List SubmissionItem) (users : List String)
    (hfs : ∀ u ∈ users, fs u = .ok (subsOf u)) :
    processUsers pm ps fs users
      = .ok ((users.map fun u => userEmbeds pm ps u (subsOf u)).flatten) := by
  induction users with
  | nil => rfl
  | cons u rest ih =>
    have h1 : fs u = .ok (subsOf u) := hfs u (List.mem_cons_self u rest)
    have h2 := ih fun v hv => hfs v (List.mem_cons_of_mem u hv)
    simp [processUsers, h1, h2]

/-! ### Concrete inputs used by counterexamples and witnesses -/

/-- An accepted submission for problem p1 (submission id 1). -/
def acDup1 : SubmissionItem := ⟨1, 0, "p1", "abc", "alice", "Rust", 0, 10, "AC", none⟩

/-- A second accepted submission for the same problem p1 (submission id 2). -/
def acDup2 : SubmissionItem := ⟨2, 0, "p1", "abc", "alice", "Rust", 0, 12, "AC", none⟩

/-- A rejected (WA) submission for problem p1, earliest in the window. -/
def waFirst : SubmissionItem := ⟨1, 0, "p1", "abc", "alice", "Python", 0, 10, "WA", none⟩

/-- An accepted submission for problem p1 coming after the rejected one. -/
def acSecond : SubmissionItem := ⟨2, 0, "p1", "abc", "alice", "Rust", 0, 12, "AC", none⟩

/-- The catalog entry for problem p1. -/
def catalogP1 : ProblemItem := ⟨"p1", "abc", "a", "A. Test", "abc - A. Test"⟩

/-- A detail entry with no difficulty data. -/
def sampleDetail : ProblemDetail := ⟨"T", none, "Rust", "u"⟩

/-! ### Claims -/

/-- Claim C1, counterexample: with two accepted submissions for the same
problem id in the window, `solved_ids` keeps both occurrences (one
distinct id after dedup) and the account's result list has two
`ProblemDetail` entries, not exactly one. -/
theorem C1_counterexample :
    (solved_ids [acDup1, acDup2]).dedup.length = 1 ∧
      (solved_problems [] [] [acDup1, acDup2]).length = 2 ∧
      (solved_problems [] [] [acDup1, acDup2]).length ≠ 1 := by
  refine ⟨?_, ?_, ?_⟩ <;> decide

/-- Claim C1 (amended): the run yields exactly one `ProblemDetail` per
accepted submission in the window (in submission-list order), not per
distinct problem id: a problem with several accepted submissions appears
once per accepted submission. -/
theorem C1_amended_per_submission (pm : List (String × ProblemModelItem))
    (ps : List ProblemItem) (subs : List SubmissionItem) :
    (solved_problems pm ps subs).length
        = (subs.filter fun s => s.result == "AC").length ∧
      solved_ids subs
        = ((subs.filter fun s => s.result == "AC").map fun s => s.problem_id) := by
  constructor
  · simp [solved_problems, solved_ids]
  · rfl

/-- Claim C1 amended-theorem witness: the length identity evaluated on the
duplicate-submission input. -/
theorem C1_amended_per_submission_witness :
    (solved_problems [] [] [acDup1, acDup2]).length
      = ([acDup1, acDup2].filter fun s => s.result == "AC").length :=
  (C1_amended_per_submission [] [] [acDup1, acDup2]).1

/-- Claim C2, code-bug evaluation: with a rejected (WA) submission for p1
occurring before the accepted one, the reported `ProblemDetail` carries the
language and the submission id of the rejected submission — the
representative is looked up in the unfiltered window list, so it need not
be accepted. -/
theorem C2_representative_not_accepted :
    solved_problems [] [catalogP1] [waFirst, acSecond]
        = [⟨"abc - A. Test", none, "Python",
            "https://atcoder.jp/contests/abc/submissions/1"⟩] ∧
      waFirst.result = "WA" := by
  constructor <;> rfl

/-- Claim C3, counterexample: a negative normalized difficulty falls into
the final `_ => Color::Red` arm, not into the Gray band the claim asserts
for every input strictly below 400. -/
theorem C3_counterexample :
    difficulty_color (-1) = Color.Red ∧ difficulty_color (-1) ≠ Color.Gray := by
  constructor <;> decide

/-- Claim C3 (amended): `difficulty_color` maps 0-399 to Gray, the fixed
bands of width 400 up to 2799 to Brown through Orange, and everything else
— at or above 2800 **and every negative input** — to Red; it never returns
the Black sentinel. -/
theorem C3_bands (d : ℤ) :
    (0 ≤ d ∧ d ≤ 399 → difficulty_color d = Color.Gray) ∧
    (400 ≤ d ∧ d ≤ 799 → difficulty_color d = Color.Brown) ∧
    (800 ≤ d ∧ d ≤ 1199 → difficulty_color d = Color.Green) ∧
    (1200 ≤ d ∧ d ≤ 1599 → difficulty_color d = Color.Cyan) ∧
    (1600 ≤ d ∧ d ≤ 1999 → difficulty_color d = Color.Blue) ∧
    (2000 ≤ d ∧ d ≤ 2399 → difficulty_color d = Color.Yellow) ∧
    (2400 ≤ d ∧ d ≤ 2799 → difficulty_color d = Color.Orange) ∧
    (2800 ≤ d ∨ d < 0 → difficulty_color d = Color.Red) ∧
    difficulty_color d ≠ Color.Black := by
  unfold difficulty_color
  refine ⟨fun h => ?_, fun h => ?_, fun h => ?_, fun h => ?_, fun h => ?_,
    fun h => ?_, fun h => ?_, fun h => ?_, ?_⟩ <;>
    split_ifs <;> first | rfl | omega | decide

/-- Claim C3 witness: the amended band map evaluated at concrete inputs. -/
theorem C3_bands_witness :
    difficulty_color 0 = Color.Gray ∧ difficulty_color 2800 = Color.Red ∧
      difficulty_color (-5) = Color.Red :=
  ⟨(C3_bands 0).1 ⟨by decide, by decide⟩,
   (C3_bands 2800).2.2.2.2.2.2.2.1 (Or.inl (by decide)),
   (C3_bands (-5)).2.2.2.2.2.2.2.1 (Or.inr (by decide))⟩

/-- Claim C4, counterexample: with no destination set the run ends in the
panic `Channel not set` (the source's `expect`), which is a process abort
of the Rust task, not the `NotConfigured` error value surfaced to the
trigger site that the claim asserts. -/
theorem C4_counterexample :
    process (.ok ⟨none, ["alice"]⟩) (.ok []) (.ok []) (fun _ => .ok [])
        = .error (.panicked "Channel not set") ∧
      RunError.panicked "Channel not set" ≠ RunError.notConfigured := by
  constructor
  · rfl
  · decide

/-- Claim C4 (amended): when no destination is set the run aborts before
any of the three upstream fetches — the outcome is independent of all
fetch results — but it aborts by panicking on the `expect` (`Channel not
set`), and the pipeline never returns a `NotConfigured` error value. -/
theorem C4_panic_before_fetch :
    (∀ (users : List String)
      (fm : Except Unit (List (String × ProblemModelItem)))
      (fp : Except Unit (List ProblemItem))
      (fs : String → Except Unit (List SubmissionItem)),
      process (.ok ⟨none, users⟩) fm fp fs
        = .error (.panicked "Channel not set")) ∧
    (∀ (lr : Except Unit Data)
      (fm : Except Unit (List (String × ProblemModelItem)))
      (fp : Except Unit (List ProblemItem))
      (fs : String → Except Unit (List SubmissionItem)),
      process lr fm fp fs ≠ .error RunError.notConfigured) := by
  refine ⟨fun users fm fp fs => rfl, ?_⟩
  intro lr fm fp fs
  rcases lr with _ | data
  · simp [process]
  · rcases data with ⟨och, us⟩
    rcases och with _ | ch
    · simp [process]
    · rcases fm with _ | pm
      · simp [process]
      · rcases fp with _ | ps
        · simp [process]
        · rcases hpu : processUsers pm ps fs us with _ | embeds
          · simp [process, hpu]
          · by_cases he : embeds.isEmpty <;> simp [process, hpu, he]

/-- Claim C4 amended-theorem witness: with no destination set the run ends
in the panic even when every fetch would fail. -/
theorem C4_panic_before_fetch_witness :
    process (.ok ⟨none, []⟩) (.error ()) (.error ()) (fun _ => .error ())
      = .error (.panicked "Channel not set") :=
  C4_panic_before_fetch.1 [] (.error ()) (.error ()) (fun _ => .error ())

/-- Claim C5: batching splits a detail list into consecutive chunks of at
most 25 entries whose concatenation is the input, and a 30-entry input
yields exactly two chunks of sizes 25 and 5. -/
theorem C5_batching (l : List ProblemDetail) :
    (chunksOf 25 l).flatten = l ∧
    (∀ c ∈ chunksOf 25 l, c.length ≤ 25) ∧
    (l.length = 30 → (chunksOf 25 l).map List.length = [25, 5]) :=
  ⟨chunksOf_join 25 (by decide) l, chunksOf_mem_length_le 25 l,
   fun h => chunksOf_25_of_len_30 l h⟩

/-- Claim C5 witness: the 30-entry instance evaluated concretely. -/
theorem C5_batching_witness :
    (chunksOf 25 (List.replicate 30 sampleDetail)).map List.length = [25, 5] :=
  (C5_batching (List.replicate 30 sampleDetail)).2.2 (by simp)

/-- Claim C6: for a non-empty chunk the summary color is the maximum of
the entries' colors under the severity order — it is one of the entry
colors and bounds them all — an entry with absent difficulty contributes
the Black sentinel, Black sits strictly below Gray, and the page's accent
is exactly this maximum. -/
theorem C6_summary_color (chunk : List ProblemDetail) (h : chunk ≠ []) :
    summaryColor chunk ∈ chunk.map detailColor ∧
    (∀ p ∈ chunk, Color.le (detailColor p) (summaryColor chunk)) ∧
    (∀ p ∈ chunk, p.difficulty = none → detailColor p = Color.Black) ∧
    Color.lt Color.Black Color.Gray ∧
    (∀ u : String, (mkEmbed u chunk).color = colorValue (summaryColor chunk)) := by
  cases chunk with
  | nil => exact absurd rfl h
  | cons p ps =>
    have hs : summaryColor (p :: ps)
        = (ps.map detailColor).foldl Color.cmax (detailColor p) := by
      simp [summaryColor, listMax?]
    refine ⟨?_, ?_, ?_, by decide, fun u => rfl⟩
    · rw [hs]
      rcases foldl_cmax_mem (ps.map detailColor) (detailColor p) with h1 | h1
      · rw [h1]
        simp
      · simp only [List.map_cons]
        exact List.mem_cons_of_mem _ h1
    · intro q hq
      rw [hs]
      rcases List.mem_cons.mp hq with rfl | hq2
      · exact (foldl_cmax_bound _ _).1
      · exact (foldl_cmax_bound _ _).2 (detailColor q)
          (List.mem_map_of_mem detailColor hq2)
    · intro q hq hnone
      simp [detailColor, hnone]

/-- Claim C6 witness: the summary color of a concrete one-entry chunk. -/
theorem C6_summary_color_witness :
    summaryColor [sampleDetail] ∈ [sampleDetail].map detailColor ∧
      Color.lt Color.Black Color.Gray :=
  ⟨(C6_summary_color [sampleDetail] (by simp)).1,
   (C6_summary_color [sampleDetail] (by simp)).2.2.2.1⟩

/-- Claim C7: on a run where the config loads, a destination is set and all
fetches succeed, the pipeline sends exactly one plain notice when the whole
run produces no pages, and otherwise exactly one message carrying all pages
of all accounts in roster order. -/
theorem C7_send_rule (ch : ℕ) (users : List String)
    (pm : List (String × ProblemModelItem)) (ps : List ProblemItem)
    (fs : String → Except Unit (List SubmissionItem))
    (subsOf : String → List SubmissionItem)
    (hfs : ∀ u ∈ users, fs u = .ok (subsOf u)) :
    process (.ok ⟨some ch, users⟩) (.ok pm) (.ok ps) fs
      = (if ((users.map fun u => userEmbeds pm ps u (subsOf u)).flatten).isEmpty
         then .ok (ch, .notice "昨日は誰もACしませんでした。")
         else .ok (ch,
           .message ((users.map fun u => userEmbeds pm ps u (subsOf u)).flatten))) := by
  have h := processUsers_ok pm ps fs subsOf users hfs
  simp [process, h]

/-- Claim C7 witness: a roster with one account that solved nothing yields
exactly the plain notice. -/
theorem C7_send_rule_witness :
    process (.ok ⟨some 1, ["alice"]⟩) (.ok []) (.ok []) (fun _ => .ok [])
      = .ok (1, .notice "昨日は誰もACしませんでした。") := by
  have h := C7_send_rule 1 ["alice"] [] [] (fun _ => .ok []) (fun _ => [])
    (fun u _ => rfl)
  simpa [userEmbeds, solved_problems, solved_ids, chunksOf_nil] using h

/-- Claim C8: `normalize_difficulty` is the identity at and above 400;
below 400 it is the logistic compression truncated toward zero, stays
strictly below 400, and is monotone non-decreasing. -/
theorem C8_normalize_behavior :
    (∀ d : ℤ, 400 ≤ d → normalize_difficulty d = d) ∧
    (∀ d : ℤ, d < 400 →
      normalize_difficulty d
          = truncToInt (400 / (1 + Real.exp (1 - (d : ℝ) / 400))) ∧
        normalize_difficulty d < 400) ∧
    (∀ d₁ d₂ : ℤ, d₁ ≤ d₂ → d₂ < 400 →
      normalize_difficulty d₁ ≤ normalize_difficulty d₂) := by
  refine ⟨fun d hd => ?_, fun d hd => ⟨?_, ?_⟩, fun d₁ d₂ h12 h2 => ?_⟩
  · unfold normalize_difficulty
    rw [if_pos hd]
  · unfold normalize_difficulty
    rw [if_neg (by omega)]
  · rw [normalize_low_eq_floor d hd]
    have hlt := curve_lt_400 ((d : ℝ))
    exact Int.floor_lt.mpr (by exact_mod_cast hlt)
  · rw [normalize_low_eq_floor d₁ (by omega), normalize_low_eq_floor d₂ h2]
    exact Int.floor_le_floor (curve_mono (by exact_mod_cast h12))

/-- Claim C8 witness: the fixed point at 400, the sub-400 bound at 399,
and monotonicity between 0 and 399. -/
theorem C8_normalize_behavior_witness :
    normalize_difficulty 400 = 400 ∧ normalize_difficulty 399 < 400 ∧
      normalize_difficulty 0 ≤ normalize_difficulty 399 :=
  ⟨C8_normalize_behavior.1 400 (by decide),
   (C8_normalize_behavior.2.1 399 (by decide)).2,
   C8_normalize_behavior.2.2 0 399 (by decide) (by decide)⟩

/-- Claim C9: chunking the empty detail list yields no pages, and every
chunk the batching step produces is non-empty, so the maximum in the
summary-color computation is always defined. -/
theorem C9_nonempty_pages (l : List ProblemDetail) :
    chunksOf 25 ([] : List ProblemDetail) = [] ∧
    ∀ c ∈ chunksOf 25 l, c ≠ [] ∧ (listMax? (c.map detailColor)).isSome = true := by
  refine ⟨chunksOf_nil 25, fun c hc => ?_⟩
  have h1 := chunksOf_mem_ne_nil 25 l c hc
  refine ⟨h1, ?_⟩
  cases c with
  | nil => exact absurd rfl h1
  | cons p ps => simp [listMax?]

/-- Claim C9 witness: a concrete one-entry list produces the single chunk
`[sampleDetail]`, which is non-empty and has a defined maximum. -/
theorem C9_nonempty_pages_witness :
    [sampleDetail] ≠ ([] : List ProblemDetail) ∧
      (listMax? ([sampleDetail].map detailColor)).isSome = true :=
  (C9_nonempty_pages [sampleDetail]).2 [sampleDetail] (by
    rw [chunksOf_eq_cons 25 (by decide) [sampleDetail] (by simp)]
    simp [chunksOf_nil])

/-- Claim C10: the display-label conversion has no label for the Black
sentinel, but `difficulty_color` never returns Black, so the label lookup
performed by `to_field` (always on a `difficulty_color` result) always
succeeds and the unreachable branch is never taken. -/
theorem C10_label_unreachable :
    colorLabel Color.Black = none ∧
    ∀ d : ℤ, difficulty_color d ≠ Color.Black ∧
      (colorLabel (difficulty_color d)).isSome = true := by
  refine ⟨rfl, fun d => ?_⟩
  unfold difficulty_color
  split_ifs <;> exact ⟨by decide, by decide⟩

/-- Claim C10 witness: the label lookup succeeds at a concrete reachable
color. -/
theorem C10_label_unreachable_witness :
    (colorLabel (difficulty_color 100)).isSome = true :=
  (C10_label_unreachable.2 100).2

end AtcoderBot
